import Mathlib

/-!
Shallow embedding of the `wind_udp_receiver` datagram pipeline
(`src/__init__.py`, constants from `src/const.py`).

Datagrams are modelled as `List Nat` with every entry below 256
(Python `bytes`).  Monotonic clock readings (`asyncio.get_event_loop().time()`)
are modelled as rationals; wall-clock ISO timestamps
(`datetime.now().isoformat()`) are modelled as an explicit `String`
parameter threaded to the functions that read the clock, so that the
time dependence of the code is visible in the embedding.

JSON values are modelled by the inductive `Json` restricted to the
shapes this program produces and consumes: objects with string keys,
strings without escape sequences, and unsigned integers.  `dumpsJson`
mirrors Python `json.dumps` on that fragment (default separators,
insertion order); `jsonLoads` mirrors `json.loads` on the same fragment.
-/

namespace WindUdp

/-- Byte well-formedness: a Python `bytes` object has entries in 0..255. -/
def bytesWF (data : List Nat) : Prop := ∀ b ∈ data, b < 256

instance (data : List Nat) : Decidable (bytesWF data) := by
  unfold bytesWF; infer_instance

/-- Fixed device address, `const.py MODBUS_DEVICE_ADDR = 0x80`. -/
def MODBUS_DEVICE_ADDR : Nat := 0x80

/-- Fixed function code, `const.py MODBUS_FUNCTION_CODE = 0x03`. -/
def MODBUS_FUNCTION_CODE : Nat := 0x03

/-- Declared register payload length, `const.py MODBUS_DATA_LENGTH = 8`. -/
def MODBUS_DATA_LENGTH : Nat := 8

/-- Total frame length, `const.py MODBUS_EXPECTED_LENGTH = 13`. -/
def MODBUS_EXPECTED_LENGTH : Nat := 13

/-- Offline threshold in seconds, `const.py OFFLINE_THRESHOLD = 60`. -/
def OFFLINE_THRESHOLD : ℚ := 60

/-- Heartbeat keyword list, `const.py HEARTBEAT_INDICATORS`. -/
def HEARTBEAT_INDICATORS : List String :=
  ["heartbeat", "ping", "alive", "keep-alive", "heart_beat", "keepalive"]

/-- Registration keyword list, `const.py REGISTRATION_INDICATORS`. -/
def REGISTRATION_INDICATORS : List String :=
  ["register", "registration", "connect", "login", "device_info", "client_info"]

/-- Header and framing check, `ModBusDataParser._is_standard_modbus`. -/
def is_standard_modbus (data : List Nat) : Bool :=
  if data.length < 5 then false
  else
    let device_addr := data.getD 0 0
    let function_code := data.getD 1 0
    if device_addr = MODBUS_DEVICE_ADDR ∧ function_code = MODBUS_FUNCTION_CODE then
      if 3 ≤ data.length then
        let data_length := data.getD 2 0
        let expected_length := 3 + data_length + 2
        decide (data.length = expected_length ∧ data_length = MODBUS_DATA_LENGTH)
      else false
    else false

/-- Big-endian two-byte value, as `int.from_bytes(b, 'big')` on two bytes. -/
def u16be (hi lo : Nat) : Nat := 256 * hi + lo

/-- Register payload slice `data[3:11]` taken by `_parse_standard_modbus`. -/
def registerData (data : List Nat) : List Nat := (data.drop 3).take 8

/-- Four extracted register values, `ModBusDataParser._extract_wind_values`. -/
structure WindValues where
  wind_speed_raw : Nat
  wind_level : Nat
  wind_direction_raw : Nat
  wind_direction_code : Nat
deriving DecidableEq

/-- Extraction of the four big-endian 16-bit fields from the 8-byte register
payload, `ModBusDataParser._extract_wind_values`. -/
def extract_wind_values (rd : List Nat) : WindValues :=
  ⟨u16be (rd.getD 0 0) (rd.getD 1 0),
   u16be (rd.getD 2 0) (rd.getD 3 0),
   u16be (rd.getD 4 0) (rd.getD 5 0),
   u16be (rd.getD 6 0) (rd.getD 7 0)⟩

mutual
/-- JSON values, restricted to the fragment this program produces and
consumes: unsigned integers, escape-free strings, ordered objects. -/
inductive Json where
  | num : Nat → Json
  | str : String → Json
  | obj : JsonFields → Json

/-- Ordered field list of a JSON object (Python dicts preserve insertion
order, which `json.dumps` reproduces). -/
inductive JsonFields where
  | nil : JsonFields
  | cons : String → Json → JsonFields → JsonFields
end

mutual
def Json.beq : Json → Json → Bool
  | .num a, .num b => a == b
  | .str a, .str b => a == b
  | .obj a, .obj b => JsonFields.beq a b
  | _, _ => false
def JsonFields.beq : JsonFields → JsonFields → Bool
  | .nil, .nil => true
  | .cons k v r, .cons k2 v2 r2 => k == k2 && Json.beq v v2 && JsonFields.beq r r2
  | _, _ => false
end

/-- Lookup of a key in an object field list, Python `dict.get` on the
parsed JSON object. -/
def jsonGet : JsonFields → String → Option Json
  | .nil, _ => none
  | .cons k v rest, key => if k = key then some v else jsonGet rest key

/-- Canonical JSON envelope built by `ModBusDataParser._build_wind_json`:
wind_data with slot keys "0".."3" in insertion order, then the timestamp. -/
def build_wind_json (w : WindValues) (ts : String) : Json :=
  .obj (.cons "wind_data"
    (.obj (.cons "0" (.num w.wind_speed_raw)
      (.cons "1" (.num w.wind_level)
        (.cons "2" (.num w.wind_direction_raw)
          (.cons "3" (.num w.wind_direction_code) .nil)))))
    (.cons "timestamp" (.str ts) .nil))

/-- Decimal digit character for a value below ten. -/
def digitChar (n : Nat) : Char := Char.ofNat (48 + n)

/-- Worker for decimal printing: peel one digit per step, accumulating
least-significant digits on the right; the fuel bounds the recursion and
never runs out when it starts at the number itself. -/
def natDigitsAux : Nat → Nat → List Char → List Char
  | 0, n, acc => digitChar n :: acc
  | fuel + 1, n, acc =>
    if n < 10 then digitChar n :: acc
    else natDigitsAux fuel (n / 10) (digitChar (n % 10) :: acc)

/-- Decimal digit list of a natural number, most significant first, as
printed by Python `json.dumps` for a nonnegative int. -/
def natDigits (n : Nat) : List Char := natDigitsAux n n []

/-- Recursive characterization of decimal printing, used for reasoning. -/
def natDigitsW (n : Nat) : List Char :=
  if _h : n < 10 then [digitChar n]
  else natDigitsW (n / 10) ++ [digitChar (n % 10)]
termination_by n
decreasing_by exact Nat.div_lt_self (by omega) (by omega)

mutual
/-- Serialization mirroring Python `json.dumps` with default separators
on the modelled JSON fragment. -/
def dumpsJson : Json → List Char
  | .num n => natDigits n
  | .str s => '"' :: (s.data ++ ['"'])
  | .obj fs => '{' :: (dumpsFields fs ++ ['}'])

/-- Field-list serialization: `"key": value` pairs joined by `, `. -/
def dumpsFields : JsonFields → List Char
  | .nil => []
  | .cons k v .nil => '"' :: (k.data ++ '"' :: ':' :: ' ' :: dumpsJson v)
  | .cons k v (.cons k2 v2 r) =>
      ('"' :: (k.data ++ '"' :: ':' :: ' ' :: dumpsJson v)) ++
        ',' :: ' ' :: dumpsFields (.cons k2 v2 r)
end

/-- String form of `json.dumps` output. -/
def jsonDumpsStr (j : Json) : String := ⟨dumpsJson j⟩

/-- Register payload interpretation, `ModBusDataParser._parse_register_data`
up to (but not including) the final `json.dumps`; the `none` branch models
the `ValueError` raised on short payloads, caught by the caller. -/
def parse_register_data (rd : List Nat) (ts : String) : Option Json :=
  if rd.length < 8 then none
  else some (build_wind_json (extract_wind_values rd) ts)

/-- Frame interpretation, `ModBusDataParser._parse_standard_modbus`, again
up to the final `json.dumps` (the raised/caught exception path is `none`). -/
def parse_standard_modbus (data : List Nat) (ts : String) : Option Json :=
  if data.length < MODBUS_EXPECTED_LENGTH then none
  else parse_register_data (registerData data) ts

/-- Envelope-level result of `ModBusDataParser.parse_modbus_data`. -/
def parse_modbus_envelope (data : List Nat) (ts : String) : Option Json :=
  if is_standard_modbus data then parse_standard_modbus data ts else none

/-- Full classifier `ModBusDataParser.parse_modbus_data`: its `Some` result
is the `json.dumps` serialization of the wind envelope. -/
def parse_modbus_data (data : List Nat) (ts : String) : Option String :=
  (parse_modbus_envelope data ts).map jsonDumpsStr

/-- Values stored in a client record: the code stores clock readings
(floats, modelled as rationals) and strings. -/
inductive PyVal where
  | num : ℚ → PyVal
  | str : String → PyVal
deriving DecidableEq

/-- Python dict assignment `d[k] = v`: replace in place if the key is
present, append otherwise. -/
def dictSet : List (String × PyVal) → String → PyVal → List (String × PyVal)
  | [], k, v => [(k, v)]
  | (k2, v2) :: rest, k, v =>
      if k2 = k then (k, v) :: rest else (k2, v2) :: dictSet rest k v

/-- Python dict lookup `d.get(k)`. -/
def dictGet (d : List (String × PyVal)) (k : String) : Option PyVal :=
  d.lookup k

/-- Registry of known clients, `UDPProtocol.known_clients`, modelled
pointwise: address to optional record. -/
def ClientMap : Type := String → Option (List (String × PyVal))

/-- Empty registry, the initial `known_clients = {}`. -/
def emptyClients : ClientMap := fun _ => none

/-- Record update, `UDPProtocol._update_client_status`: build the base
record, merge `extra_data` over it (Python `dict.update`, later keys win),
then write the role-specific timestamp, then store under `addr`. -/
def update_client_status (m : ClientMap) (now : ℚ) (addr : String)
    (client_type : String) (extra_data : Option (List (String × PyVal))) : ClientMap :=
  let info : List (String × PyVal) :=
    [("last_seen", .num now), ("type", .str client_type)]
  let info :=
    match extra_data with
    | some e => e.foldl (fun d kv => dictSet d kv.1 kv.2) info
    | none => info
  let info :=
    if client_type = "heartbeat" then dictSet info "last_heartbeat" (.num now)
    else if client_type = "registration" then dictSet info "last_registration" (.num now)
    else info
  fun a => if a = addr then some info else m a

/-- One row of the status snapshot built by `UDPProtocol.get_client_status`. -/
structure StatusEntry where
  type : PyVal
  last_seen : ℚ
  online : Bool
  offline_duration : ℚ
deriving DecidableEq

/-- Numeric field access `info.get(k, 0)` as used on `last_seen` (the code
only ever stores a clock reading there; non-numeric values are read as the
default). -/
def getNumD (d : List (String × PyVal)) (k : String) (dflt : ℚ) : ℚ :=
  match dictGet d k with
  | some (.num q) => q
  | _ => dflt

/-- Status snapshot, `UDPProtocol.get_client_status`: for every known
address, offline duration against the current clock and the strict
60-second online test. -/
def get_client_status (m : ClientMap) (now : ℚ) : String → Option StatusEntry :=
  fun addr =>
    (m addr).map fun info =>
      let last_seen := getNumD info "last_seen" 0
      let offline_duration := now - last_seen
      ⟨(dictGet info "type").getD (.str "unknown"),
       last_seen,
       decide (offline_duration < OFFLINE_THRESHOLD),
       offline_duration⟩

/-- ASCII lowercasing of a string, modelling Python `str.lower()` on the
characters relevant to the keyword sets (all keywords are ASCII). -/
def strLower (s : String) : String := ⟨s.data.map Char.toLower⟩

/-- Prefix test on character lists. -/
def leadMatch : List Char → List Char → Bool
  | _, [] => true
  | [], _ :: _ => false
  | c :: cs, d :: ds => c == d && leadMatch cs ds

/-- Substring test on character lists, Python `needle in hay`. -/
def listHasSub : List Char → List Char → Bool
  | [], needle => needle.isEmpty
  | hay@(_ :: rest), needle => leadMatch hay needle || listHasSub rest needle

/-- Substring test `needle in hay` on strings. -/
def strHasSub (hay needle : String) : Bool := listHasSub hay.data needle.data

/-- Heartbeat keyword test, `any(indicator in data_lower ...)` over
`HEARTBEAT_INDICATORS` with `data_lower = data.lower()`. -/
def hbMatch (data : String) : Bool :=
  HEARTBEAT_INDICATORS.any fun i => strHasSub (strLower data) i

/-- Registration keyword test over `REGISTRATION_INDICATORS`. -/
def regMatch (data : String) : Bool :=
  REGISTRATION_INDICATORS.any fun i => strHasSub (strLower data) i

/-- Control-text routing test, `UDPProtocol._is_text_packet`: any keyword
from either set occurs in the lowercased text. -/
def is_text_packet (data : String) : Bool :=
  (HEARTBEAT_INDICATORS ++ REGISTRATION_INDICATORS).any fun i =>
    strHasSub (strLower data) i

/-- Outcome of the branch structure of `UDPProtocol._handle_text_packet`. -/
inductive TextClass where
  | heartbeat : TextClass
  | registration : TextClass
  | unrecognized : TextClass
deriving DecidableEq

/-- Branch selection of `UDPProtocol._handle_text_packet`: heartbeat
keywords are tested first, then registration keywords, else the
unknown-text fallback. -/
def classifyText (data : String) : TextClass :=
  if hbMatch data then .heartbeat
  else if regMatch data then .registration
  else .unrecognized

/-- Events fired on the Home Assistant bus by the handlers. -/
inductive Event where
  | heartbeat : String → String → ℚ → Event
  | registered : String → String → ℚ → Event
  | windData : String → Json → Option Json → Event
deriving Inhabited

/-- Text-packet handler, `UDPProtocol._handle_text_packet` together with
the handlers it dispatches to: result is the updated registry and the
fired events (heartbeat payload truncated to 100 characters). -/
def handle_text_packet (m : ClientMap) (now : ℚ) (data addr : String) :
    ClientMap × List Event :=
  if hbMatch data then
    (update_client_status m now addr "heartbeat" none,
     [.heartbeat addr ⟨data.data.take 100⟩ now])
  else if regMatch data then
    (update_client_status m now addr "registration"
       (some [("registration_data", .str data)]),
     [.registered addr data now])
  else (m, [])

/-- Python truthiness of a JSON value (`if wind_data:`). -/
def jsonTruthy : Json → Bool
  | .num n => n != 0
  | .str s => !s.isEmpty
  | .obj .nil => false
  | .obj (.cons _ _ _) => true

/-- JSON whitespace characters skipped by `json.loads`. -/
def isJsonWs (c : Char) : Bool :=
  c == ' ' || c == '\t' || c == '\n' || c == '\r'

/-- Drop leading JSON whitespace. -/
def skipWs : List Char → List Char
  | [] => []
  | c :: rest => if isJsonWs c then skipWs rest else c :: rest

/-- String body scanner: consume characters up to the closing quote.
Escape sequences are outside the modelled fragment and rejected. -/
def scanStrBody : List Char → Option (List Char × List Char)
  | [] => none
  | c :: rest =>
    if c = '"' then some ([], rest)
    else if c = '\\' then none
    else (scanStrBody rest).map fun p => (c :: p.1, p.2)

/-- Decimal digit test on a character. -/
def isDigitCh (c : Char) : Bool := 48 ≤ c.toNat && c.toNat ≤ 57

/-- Split a leading run of decimal digits from the input. -/
def takeDigits : List Char → List Char × List Char
  | [] => ([], [])
  | c :: rest =>
    if isDigitCh c then
      let p := takeDigits rest
      (c :: p.1, p.2)
    else ([], c :: rest)

/-- Numeric value of a digit character. -/
def digitVal (c : Char) : Nat := c.toNat - 48

/-- Value of a digit list, most significant first. -/
def digitsToNat (ds : List Char) : Nat :=
  ds.foldl (fun a c => a * 10 + digitVal c) 0

mutual
/-- Recursive-descent JSON value reader modelling `json.loads` on the
fragment used by this program (objects, escape-free strings, unsigned
integers); the fuel argument only totalizes the recursion. -/
def parseVal : Nat → List Char → Option (Json × List Char)
  | 0, _ => none
  | fuel + 1, cs =>
    match skipWs cs with
    | [] => none
    | c :: rest =>
      if c = '"' then
        (scanStrBody rest).map fun p => (Json.str ⟨p.1⟩, p.2)
      else if c = '{' then
        (parseFields fuel true rest).map fun p => (Json.obj p.1, p.2)
      else if isDigitCh c then
        let p := takeDigits (c :: rest)
        some (Json.num (digitsToNat p.1), p.2)
      else none

/-- Object body reader, positioned after `\x7b` (or after a comma when
the flag is false, where a closing brace is not allowed). -/
def parseFields : Nat → Bool → List Char → Option (JsonFields × List Char)
  | 0, _, _ => none
  | fuel + 1, allowEnd, cs =>
    match skipWs cs with
    | '}' :: rest => if allowEnd then some (.nil, rest) else none
    | '"' :: rest =>
      match scanStrBody rest with
      | none => none
      | some (k, r1) =>
        match skipWs r1 with
        | ':' :: r2 =>
          match parseVal fuel r2 with
          | none => none
          | some (v, r3) =>
            match skipWs r3 with
            | '}' :: r4 => some (.cons ⟨k⟩ v .nil, r4)
            | ',' :: r4 =>
              (parseFields fuel false r4).map fun p => (.cons ⟨k⟩ v p.1, p.2)
            | _ => none
        | _ => none
    | _ => none
end

/-- Top-level `json.loads` model: parse one value and require the rest of
the input to be whitespace. -/
def jsonLoads (s : String) : Option Json :=
  match parseVal (s.data.length + 1) s.data with
  | some (v, rest) => if (skipWs rest).isEmpty then some v else none
  | none => none

/-- Telemetry text handler, `UDPProtocol._handle_wind_data_packet`: parse
the text as JSON, read `wind_data` (default empty object), and when it is
truthy update the registry with role `wind_sensor` and fire the event.
Parse failures and non-object payloads (`AttributeError`, caught) leave
the registry unchanged and fire nothing. -/
def handle_wind_data_packet (m : ClientMap) (now : ℚ) (data addr : String) :
    ClientMap × List Event :=
  match jsonLoads data with
  | some (.obj fields) =>
    let wind_data := (jsonGet fields "wind_data").getD (.obj .nil)
    if jsonTruthy wind_data then
      (update_client_status m now addr "wind_sensor" none,
       [.windData addr wind_data (jsonGet fields "timestamp")])
    else (m, [])
  | _ => (m, [])

/-- Behaviour of the external text codecs tried before latin1.  The
regional and strict codecs (`utf-8`, `gbk`, `gb2312`, `ascii`) are stdlib
decoders whose tables are outside this embedding; they are modelled as
arbitrary partial decoding functions, so every theorem below holds for
any behaviour of theirs. -/
structure Codecs where
  utf8 : List Nat → Option String
  gbk : List Nat → Option String
  gb2312 : List Nat → Option String
  ascii : List Nat → Option String

/-- The latin1 codec decodes every byte 0..255 to the code point of the
same value and never fails. -/
def latin1Decode (data : List Nat) : Option String :=
  some ⟨data.map Char.ofNat⟩

/-- First-success loop over an ordered list of decoders, the `for` loop
of `UDPProtocol._try_text_decode`. -/
def firstSuccess (fs : List (List Nat → Option String)) (data : List Nat) :
    Option String :=
  match fs with
  | [] => none
  | f :: rest =>
    match f data with
    | some s => some s
    | none => firstSuccess rest data

/-- Text decoding, `UDPProtocol._try_text_decode`: the fixed codec order
utf-8, gbk, gb2312, ascii, latin1. -/
def try_text_decode (C : Codecs) (data : List Nat) : Option String :=
  firstSuccess [C.utf8, C.gbk, C.gb2312, C.ascii, latin1Decode] data

/-- Datagram decoding, `UDPProtocol._decode_data`: the ModBus classifier
wins when it returns a truthy (non-empty) string, otherwise the text
decoding chain runs. -/
def decode_data (C : Codecs) (data : List Nat) (ts : String) : Option String :=
  match parse_modbus_data data ts with
  | some r => if r.isEmpty then try_text_decode C data else some r
  | none => try_text_decode C data

/-- One registry-updating step of the dispatch loop: a control-text
datagram handled by `_handle_text_packet`, or a telemetry datagram
handled by `_handle_wind_data_packet`. -/
inductive RegistryStep : ClientMap → ClientMap → Prop where
  | text (m : ClientMap) (now : ℚ) (data addr : String) :
      RegistryStep m (handle_text_packet m now data addr).1
  | wind (m : ClientMap) (now : ℚ) (data addr : String) :
      RegistryStep m (handle_wind_data_packet m now data addr).1

/-- Registry states reachable from the initial empty `known_clients`
through the dispatch loop. -/
inductive ReachableRegistry : ClientMap → Prop where
  | init : ReachableRegistry emptyClients
  | step {m m2 : ClientMap} : ReachableRegistry m → RegistryStep m m2 →
      ReachableRegistry m2

/-- Hex bytes 80 03 08 00 64 00 03 00 5A 00 02 AA BB of spec Scenario 1. -/
def exampleFrame : List Nat :=
  [0x80, 0x03, 0x08, 0x00, 0x64, 0x00, 0x03, 0x00, 0x5A, 0x00, 0x02, 0xAA, 0xBB]

/-- Role-specific timestamp field appended by `_update_client_status` after
merging: last_heartbeat for heartbeat, last_registration for registration,
nothing otherwise. -/
def roleStamp (role : String) (now : ℚ) : List (String × PyVal) :=
  if role = "heartbeat" then [("last_heartbeat", PyVal.num now)]
  else if role = "registration" then [("last_registration", PyVal.num now)]
  else []

/-- Registry with a single record last seen at clock value 0, used to
exercise the snapshot boundary. -/
def sampleRegistry : ClientMap := fun a =>
  if a = "10.0.0.5:5000" then
    some [("last_seen", PyVal.num 0), ("type", PyVal.str "heartbeat")]
  else none

/-- Stored-role invariant: every record in the registry carries a type
field naming one of the three roles the update paths store.  The spec
names the telemetry role "telemetry"; the stored string for it is
`wind_sensor`, and "unknown" is only the snapshot default for a missing
field, never stored. -/
def TypeOK (m : ClientMap) : Prop :=
  ∀ addr info, m addr = some info →
    dictGet info "type" = some (PyVal.str "heartbeat") ∨
    dictGet info "type" = some (PyVal.str "registration") ∨
    dictGet info "type" = some (PyVal.str "wind_sensor")

/-- The wind_data member of a parsed envelope, as read by the telemetry
JSON path (`json_data.get('wind_data', ...)` on an object). -/
def windDataOf : Json → Option Json
  | .obj fields => jsonGet fields "wind_data"
  | _ => none

mutual
/-- Structural size of a JSON value, bounding the parser fuel it needs. -/
def jsize : Json → Nat
  | .num _ => 1
  | .str _ => 1
  | .obj fs => fsize fs + 1

/-- Structural size of a field list. -/
def fsize : JsonFields → Nat
  | .nil => 1
  | .cons _ v r => jsize v + fsize r + 1
end

mutual
/-- Values inside the modelled JSON fragment whose serialization needs no
escape sequences: every string is free of quote and backslash. -/
def plainJson : Json → Prop
  | .num _ => True
  | .str s => ∀ c ∈ s.data, c ≠ '"' ∧ c ≠ '\\'
  | .obj fs => plainFields fs

/-- Field lists of the plain fragment. -/
def plainFields : JsonFields → Prop
  | .nil => True
  | .cons k v r =>
      (∀ c ∈ k.data, c ≠ '"' ∧ c ≠ '\\') ∧ plainJson v ∧ plainFields r
end

/-- Input that does not begin with a decimal digit (so a digit run just
before it ends there). -/
def nonDigitStart : List Char → Prop
  | [] => True
  | c :: _ => isDigitCh c = false

lemma natDigitsAux_eq (fuel n : Nat) (acc : List Char) (h : n ≤ fuel) :
    natDigitsAux fuel n acc = natDigitsW n ++ acc := by
  induction fuel generalizing n acc with
  | zero =>
    have hn : n = 0 := by omega
    subst hn
    rw [natDigitsAux, natDigitsW]
    rfl
  | succ fuel ih =>
    rw [natDigitsAux]
    by_cases h10 : n < 10
    · rw [if_pos h10, natDigitsW, dif_pos h10]
      rfl
    · rw [if_neg h10]
      conv_rhs => rw [natDigitsW]
      rw [dif_neg h10, List.append_assoc, List.singleton_append,
        ih (n / 10) _ (by omega)]

lemma natDigits_eq_spec (n : Nat) : natDigits n = natDigitsW n := by
  rw [natDigits, natDigitsAux_eq n n [] le_rfl, List.append_nil]

lemma registerData_getD (data : List Nat) (i : Nat) (h : i < 8) :
    (registerData data).getD i 0 = data.getD (3 + i) 0 := by
  unfold registerData
  rw [List.getD_eq_getElem?_getD, List.getD_eq_getElem?_getD,
    List.getElem?_take_of_lt h, List.getElem?_drop]

lemma registerData_length (data : List Nat) (h : data.length = 13) :
    (registerData data).length = 8 := by
  unfold registerData
  rw [List.length_take, List.length_drop, h]
  omega

lemma extract_registerData (data : List Nat) :
    extract_wind_values (registerData data) =
      ⟨u16be (data.getD 3 0) (data.getD 4 0),
       u16be (data.getD 5 0) (data.getD 6 0),
       u16be (data.getD 7 0) (data.getD 8 0),
       u16be (data.getD 9 0) (data.getD 10 0)⟩ := by
  unfold extract_wind_values
  rw [registerData_getD data 0 (by omega), registerData_getD data 1 (by omega),
    registerData_getD data 2 (by omega), registerData_getD data 3 (by omega),
    registerData_getD data 4 (by omega), registerData_getD data 5 (by omega),
    registerData_getD data 6 (by omega), registerData_getD data 7 (by omega)]

lemma getD_lt_256 (data : List Nat) (hwf : bytesWF data) (i : Nat) :
    data.getD i 0 < 256 := by
  rw [List.getD_eq_getElem?_getD]
  cases h : data[i]? with
  | none => simp
  | some b =>
    simpa using hwf b (List.getElem?_mem h)

lemma u16be_lt (hi lo : Nat) (h1 : hi < 256) (h2 : lo < 256) :
    u16be hi lo < 65536 := by
  unfold u16be; omega

lemma is_standard_modbus_of_header (data : List Nat)
    (hlen : data.length = 13) (h0 : data.getD 0 0 = 0x80)
    (h1 : data.getD 1 0 = 0x03) (h2 : data.getD 2 0 = 8) :
    is_standard_modbus data = true := by
  unfold is_standard_modbus
  simp only [hlen, h0, h1, h2, MODBUS_DEVICE_ADDR, MODBUS_FUNCTION_CODE,
    MODBUS_DATA_LENGTH]
  norm_num

lemma parse_modbus_envelope_of_header (data : List Nat) (ts : String)
    (hlen : data.length = 13) (h0 : data.getD 0 0 = 0x80)
    (h1 : data.getD 1 0 = 0x03) (h2 : data.getD 2 0 = 8) :
    parse_modbus_envelope data ts =
      some (build_wind_json
        ⟨u16be (data.getD 3 0) (data.getD 4 0),
         u16be (data.getD 5 0) (data.getD 6 0),
         u16be (data.getD 7 0) (data.getD 8 0),
         u16be (data.getD 9 0) (data.getD 10 0)⟩ ts) := by
  unfold parse_modbus_envelope parse_standard_modbus parse_register_data
  rw [is_standard_modbus_of_header data hlen h0 h1 h2, if_pos rfl,
    if_neg (by rw [hlen]; decide), if_neg (by rw [registerData_length data hlen]; decide),
    extract_registerData]

/-- C1: a 13-byte datagram whose first three bytes are 0x80, 0x03, 8 is
accepted by the frame classifier, which extracts the four big-endian
16-bit values at offsets 3, 5, 7, 9 into wind_data slots "0".."3" of the
serialized JSON envelope; the extracted values are below 2^16. -/
theorem c1_frame_extraction (data : List Nat) (ts : String)
    (hwf : bytesWF data) (hlen : data.length = 13)
    (h0 : data.getD 0 0 = 0x80) (h1 : data.getD 1 0 = 0x03)
    (h2 : data.getD 2 0 = 8) :
    is_standard_modbus data = true ∧
    parse_modbus_data data ts =
      some (jsonDumpsStr (build_wind_json
        ⟨u16be (data.getD 3 0) (data.getD 4 0),
         u16be (data.getD 5 0) (data.getD 6 0),
         u16be (data.getD 7 0) (data.getD 8 0),
         u16be (data.getD 9 0) (data.getD 10 0)⟩ ts)) ∧
    u16be (data.getD 3 0) (data.getD 4 0) < 65536 ∧
    u16be (data.getD 5 0) (data.getD 6 0) < 65536 ∧
    u16be (data.getD 7 0) (data.getD 8 0) < 65536 ∧
    u16be (data.getD 9 0) (data.getD 10 0) < 65536 := by
  refine ⟨is_standard_modbus_of_header data hlen h0 h1 h2, ?_, ?_, ?_, ?_, ?_⟩
  · unfold parse_modbus_data
    rw [parse_modbus_envelope_of_header data ts hlen h0 h1 h2]
    rfl
  all_goals
    exact u16be_lt _ _ (getD_lt_256 data hwf _) (getD_lt_256 data hwf _)

/-- Witness for C1 at the Scenario 1 bytes: the hypotheses hold and the
extracted wind_data values are 100, 3, 90, 2. -/
theorem c1_frame_extraction_witness :
    (bytesWF exampleFrame ∧ exampleFrame.length = 13 ∧
      exampleFrame.getD 0 0 = 0x80 ∧ exampleFrame.getD 1 0 = 0x03 ∧
      exampleFrame.getD 2 0 = 8) ∧
    parse_modbus_data exampleFrame "2024-01-01T00:00:00" =
      some (jsonDumpsStr (build_wind_json ⟨100, 3, 90, 2⟩ "2024-01-01T00:00:00")) := by
  refine ⟨by decide, ?_⟩
  exact (c1_frame_extraction exampleFrame "2024-01-01T00:00:00" (by decide)
    (by decide) (by decide) (by decide) (by decide)).2.1

lemma is_standard_modbus_false_of_check_failure (data : List Nat)
    (h : data.length < 5 ∨ data.getD 0 0 ≠ 0x80 ∨ data.getD 1 0 ≠ 0x03 ∨
      data.getD 2 0 ≠ 8 ∨ data.length ≠ 3 + data.getD 2 0 + 2) :
    is_standard_modbus data = false := by
  unfold is_standard_modbus
  simp only [ MODBUS_DEVICE_ADDR, MODBUS_FUNCTION_CODE, MODBUS_DATA_LENGTH]
  split_ifs with hl hh h3
  · rfl
  · simp only [decide_eq_false_iff_not]
    intro hc
    rcases h with h | h | h | h | h
    · omega
    · exact h (by simpa using hh.1)
    · exact h (by simpa using hh.2)
    · exact h hc.2
    · exact h hc.1
  · rfl
  · rfl

/-- C2: a datagram failing any frame check (short, wrong header bytes,
wrong declared length, inconsistent total length) is rejected by the
classifier, and datagram decoding falls through to the text path. -/
theorem c2_frame_checks_fail_closed (data : List Nat) (ts : String) (C : Codecs)
    (h : data.length < 5 ∨ data.getD 0 0 ≠ 0x80 ∨ data.getD 1 0 ≠ 0x03 ∨
      data.getD 2 0 ≠ 8 ∨ data.length ≠ 3 + data.getD 2 0 + 2) :
    parse_modbus_data data ts = none ∧
    decode_data C data ts = try_text_decode C data := by
  have hnone : parse_modbus_data data ts = none := by
    unfold parse_modbus_data parse_modbus_envelope
    rw [is_standard_modbus_false_of_check_failure data h]
    rfl
  refine ⟨hnone, ?_⟩
  unfold decode_data
  rw [hnone]

/-- Witness for C2 at the one-byte datagram 0x00 with trivially failing
codecs: the length check fails and decoding falls through to text. -/
theorem c2_frame_checks_fail_closed_witness :
    ([0].length < 5 ∨ ([0] : List Nat).getD 0 0 ≠ 0x80 ∨
      ([0] : List Nat).getD 1 0 ≠ 0x03 ∨ ([0] : List Nat).getD 2 0 ≠ 8 ∨
      [0].length ≠ 3 + ([0] : List Nat).getD 2 0 + 2) ∧
    parse_modbus_data [0] "T" = none := by
  refine ⟨by decide, ?_⟩
  exact (c2_frame_checks_fail_closed [0] "T"
    ⟨fun _ => none, fun _ => none, fun _ => none, fun _ => none⟩
    (by decide)).1

lemma lookup_cons_self (k : String) (v : PyVal) (es : List (String × PyVal)) :
    List.lookup k ((k, v) :: es) = some v := by
  simp [ List.lookup]

lemma lookup_cons_ne (k a : String) (v : PyVal) (es : List (String × PyVal))
    (h : a ≠ k) : List.lookup a ((k, v) :: es) = List.lookup a es := by
  have hb : (a == k) = false := beq_eq_false_iff_ne.mpr h
  simp [ List.lookup, hb]

lemma dictSet_lookup_self (d : List (String × PyVal)) (k : String) (v : PyVal) :
    List.lookup k (dictSet d k v) = some v := by
  induction d with
  | nil => simp [dictSet, List.lookup]
  | cons p rest ih =>
    obtain ⟨kh, vh⟩ := p
    rw [dictSet]
    by_cases hk : kh = k
    · rw [if_pos hk, lookup_cons_self]
    · rw [if_neg hk, lookup_cons_ne kh k vh _ (fun he => hk he.symm)]
      exact ih

lemma dictSet_lookup_ne (d : List (String × PyVal)) (k k2 : String) (v : PyVal)
    (h : k ≠ k2) : List.lookup k2 (dictSet d k v) = List.lookup k2 d := by
  induction d with
  | nil =>
    show List.lookup k2 [(k, v)] = List.lookup k2 []
    rw [lookup_cons_ne k k2 v [] h.symm]
  | cons p rest ih =>
    obtain ⟨kh, vh⟩ := p
    rw [dictSet]
    by_cases hk : kh = k
    · rw [if_pos hk]
      subst hk
      rw [lookup_cons_ne kh k2 v rest (h.symm), lookup_cons_ne kh k2 vh rest (h.symm)]
    · rw [if_neg hk]
      by_cases hb : k2 = kh
      · subst hb
        rw [lookup_cons_self, lookup_cons_self]
      · rw [lookup_cons_ne kh k2 vh _ hb, lookup_cons_ne kh k2 vh rest hb]
        exact ih

lemma dictSet_fresh (d : List (String × PyVal)) (k : String) (v : PyVal)
    (h : List.lookup k d = none) : dictSet d k v = d ++ [(k, v)] := by
  induction d with
  | nil => rfl
  | cons p rest ih =>
    obtain ⟨kh, vh⟩ := p
    have hne : kh ≠ k := by
      intro he
      subst he
      rw [lookup_cons_self] at h
      cases h
    rw [dictSet, if_neg hne, List.cons_append, ih]
    rwa [lookup_cons_ne kh k vh rest (fun he => hne he.symm)] at h

lemma lookup_none_of_keys (k : String) (l : List (String × PyVal))
    (h : ∀ kv ∈ l, kv.1 ≠ k) : List.lookup k l = none := by
  induction l with
  | nil => rfl
  | cons p rest ih =>
    obtain ⟨kh, vh⟩ := p
    rw [lookup_cons_ne kh k vh rest
      (fun he => h (kh, vh) (List.mem_cons_self _ _) he.symm)]
    exact ih fun kv hkv => h kv (List.mem_cons_of_mem _ hkv)

lemma lookup_append_of_none (k : String) (l1 l2 : List (String × PyVal))
    (h : List.lookup k l1 = none) :
    List.lookup k (l1 ++ l2) = List.lookup k l2 := by
  induction l1 with
  | nil => rfl
  | cons p rest ih =>
    obtain ⟨kh, vh⟩ := p
    cases hb : (k == kh) with
    | true => simp [ List.lookup, hb] at h
    | false =>
      simp only [ List.lookup, hb] at h
      rw [List.cons_append]
      simp only [ List.lookup, hb]
      exact ih h

lemma foldl_dictSet_lookup_ne (e : List (String × PyVal))
    (d : List (String × PyVal)) (k2 : String) (h : ∀ kv ∈ e, kv.1 ≠ k2) :
    List.lookup k2 (e.foldl (fun d kv => dictSet d kv.1 kv.2) d) =
      List.lookup k2 d := by
  induction e generalizing d with
  | nil => rfl
  | cons kv rest ih =>
    rw [List.foldl_cons, ih _ (fun x hx => h x (List.mem_cons_of_mem _ hx)),
      dictSet_lookup_ne _ _ _ _ (h kv (List.mem_cons_self _ _))]

lemma foldl_dictSet_fresh (e d : List (String × PyVal))
    (hd : ∀ kv ∈ e, List.lookup kv.1 d = none)
    (hnodup : (e.map Prod.fst).Nodup) :
    e.foldl (fun d kv => dictSet d kv.1 kv.2) d = d ++ e := by
  induction e generalizing d with
  | nil => simp
  | cons kv rest ih =>
    have hnext : ∀ x ∈ rest, List.lookup x.1 (d ++ [kv]) = none := by
      intro x hx
      rw [lookup_append_of_none x.1 d [kv] (hd x (List.mem_cons_of_mem _ hx))]
      have hxk : x.1 ≠ kv.1 := by
        intro he
        have := (List.nodup_cons.mp hnodup).1
        exact this (he ▸ List.mem_map_of_mem Prod.fst hx)
      rw [lookup_cons_ne kv.1 x.1 kv.2 [] hxk]
      rfl
    rw [List.foldl_cons, dictSet_fresh d kv.1 kv.2 (hd kv (List.mem_cons_self _ _)),
      ih _ hnext (List.nodup_cons.mp hnodup).2, List.append_assoc, List.singleton_append]

lemma update_client_status_eq (m : ClientMap) (now : ℚ) (addr role : String)
    (extra : List (String × PyVal))
    (hkeys : ∀ kv ∈ extra, kv.1 ≠ "last_seen" ∧ kv.1 ≠ "type" ∧
      kv.1 ≠ "last_heartbeat" ∧ kv.1 ≠ "last_registration")
    (hnodup : (extra.map Prod.fst).Nodup) (a : String) :
    update_client_status m now addr role (some extra) a =
      if a = addr then
        some ([("last_seen", PyVal.num now), ("type", PyVal.str role)] ++
          extra ++ roleStamp role now)
      else m a := by
  have hfresh : ∀ kv ∈ extra,
      List.lookup kv.1 [("last_seen", PyVal.num now), ("type", PyVal.str role)] = none := by
    intro kv hkv
    rw [lookup_cons_ne _ _ _ _ (hkeys kv hkv).1, lookup_cons_ne _ _ _ _ (hkeys kv hkv).2.1]
    rfl
  have hmerge : extra.foldl (fun d kv => dictSet d kv.1 kv.2)
      [("last_seen", PyVal.num now), ("type", PyVal.str role)] =
      [("last_seen", PyVal.num now), ("type", PyVal.str role)] ++ extra :=
    foldl_dictSet_fresh _ _ hfresh hnodup
  have hhb : List.lookup "last_heartbeat"
      ([("last_seen", PyVal.num now), ("type", PyVal.str role)] ++ extra) = none := by
    rw [lookup_append_of_none _ _ _ (by rw [lookup_cons_ne _ _ _ _ (by decide),
      lookup_cons_ne _ _ _ _ (by decide)]; rfl)]
    exact lookup_none_of_keys _ _ fun kv hkv he => (hkeys kv hkv).2.2.1 he
  have hlr : List.lookup "last_registration"
      ([("last_seen", PyVal.num now), ("type", PyVal.str role)] ++ extra) = none := by
    rw [lookup_append_of_none _ _ _ (by rw [lookup_cons_ne _ _ _ _ (by decide),
      lookup_cons_ne _ _ _ _ (by decide)]; rfl)]
    exact lookup_none_of_keys _ _ fun kv hkv he => (hkeys kv hkv).2.2.2 he
  simp only [update_client_status, hmerge, roleStamp]
  by_cases hr : role = "heartbeat"
  · rw [if_pos hr, if_pos hr, dictSet_fresh _ _ _ hhb, List.append_assoc]
  · rw [if_neg hr, if_neg hr]
    by_cases hr2 : role = "registration"
    · rw [if_pos hr2, if_pos hr2, dictSet_fresh _ _ _ hlr, List.append_assoc]
    · rw [if_neg hr2, if_neg hr2, List.append_nil]

/-- C7 counterexample: with now = 1 and an extra mapping that binds
last_seen, the stored record keeps the extra value 999, not the current
time 1 — extra fields override the base fields, contradicting the claim
that the record always contains last_seen = now. -/
theorem c7_counterexample_extra_overrides :
    (update_client_status emptyClients 1 "10.0.0.5:5000" "wind_sensor"
        (some [("last_seen", PyVal.num 999)])) "10.0.0.5:5000" =
      some [("last_seen", PyVal.num 999), ("type", PyVal.str "wind_sensor")] ∧
    PyVal.num 999 ≠ PyVal.num 1 := by
  refine ⟨by decide, by decide⟩

/-- C7 amended: for extra mappings that avoid the reserved keys last_seen,
type, last_heartbeat, last_registration, the record for `addr` is replaced
by exactly the base fields (last_seen = now, type = role), then the extra
fields, then the role-specific timestamp; all other addresses are
unchanged and no record is removed. -/
theorem c7_record_update (m : ClientMap) (now : ℚ) (addr role : String)
    (extra : List (String × PyVal))
    (hkeys : ∀ kv ∈ extra, kv.1 ≠ "last_seen" ∧ kv.1 ≠ "type" ∧
      kv.1 ≠ "last_heartbeat" ∧ kv.1 ≠ "last_registration")
    (hnodup : (extra.map Prod.fst).Nodup) :
    update_client_status m now addr role (some extra) addr =
      some ([("last_seen", PyVal.num now), ("type", PyVal.str role)] ++
        extra ++ roleStamp role now) ∧
    (∀ a, a ≠ addr → update_client_status m now addr role (some extra) a = m a) ∧
    (∀ a, (m a).isSome →
      (update_client_status m now addr role (some extra) a).isSome) := by
  refine ⟨?_, ?_, ?_⟩
  · rw [update_client_status_eq m now addr role extra hkeys hnodup addr, if_pos rfl]
  · intro a ha
    rw [update_client_status_eq m now addr role extra hkeys hnodup a, if_neg ha]
  · intro a ha
    rw [update_client_status_eq m now addr role extra hkeys hnodup a]
    by_cases h : a = addr
    · rw [if_pos h]; rfl
    · rw [if_neg h]; exact ha

/-- Witness for C7 (amended) at a registration-style extra mapping. -/
theorem c7_record_update_witness :
    ((∀ kv ∈ [("registration_data", PyVal.str "REG device-7")],
        kv.1 ≠ "last_seen" ∧ kv.1 ≠ "type" ∧ kv.1 ≠ "last_heartbeat" ∧
        kv.1 ≠ "last_registration") ∧
      (([("registration_data", PyVal.str "REG device-7")].map Prod.fst).Nodup)) ∧
    update_client_status emptyClients 5 "10.0.0.5:5000" "registration"
        (some [("registration_data", PyVal.str "REG device-7")]) "10.0.0.5:5000" =
      some ([("last_seen", PyVal.num 5), ("type", PyVal.str "registration")] ++
        [("registration_data", PyVal.str "REG device-7")] ++
        roleStamp "registration" 5) := by
  refine ⟨⟨by decide, by decide⟩, ?_⟩
  exact (c7_record_update emptyClients 5 "10.0.0.5:5000" "registration"
    [("registration_data", PyVal.str "REG device-7")] (by decide) (by decide)).1

/-- C3: the snapshot reports, for a record with numeric last-seen t,
offline_duration = now - t and online decided by the strict 60-second
threshold; in particular 59 seconds of silence is online and 61 is not. -/
theorem c3_snapshot_threshold (m : ClientMap) (now t : ℚ) (addr : String)
    (info : List (String × PyVal)) (hrec : m addr = some info)
    (hseen : dictGet info "last_seen" = some (PyVal.num t)) :
    get_client_status m now addr =
      some ⟨(dictGet info "type").getD (PyVal.str "unknown"), t,
        decide (now - t < OFFLINE_THRESHOLD), now - t⟩ ∧
    (now - t = 59 → get_client_status m now addr =
      some ⟨(dictGet info "type").getD (PyVal.str "unknown"), t, true, now - t⟩) ∧
    (now - t = 61 → get_client_status m now addr =
      some ⟨(dictGet info "type").getD (PyVal.str "unknown"), t, false, now - t⟩) := by
  have h1 : get_client_status m now addr =
      some ⟨(dictGet info "type").getD (PyVal.str "unknown"), t,
        decide (now - t < OFFLINE_THRESHOLD), now - t⟩ := by
    unfold get_client_status getNumD
    rw [hrec, Option.map_some', hseen]
  refine ⟨h1, ?_, ?_⟩
  · intro h59
    have hd : decide (now - t < OFFLINE_THRESHOLD) = true := by
      rw [h59]; decide
    rw [h1, hd]
  · intro h61
    have hd : decide (now - t < OFFLINE_THRESHOLD) = false := by
      rw [h61]; decide
    rw [h1, hd]

/-- Witness for C3: a record last seen at 0 is online in the snapshot at
59 and offline in the snapshot at 61. -/
theorem c3_snapshot_threshold_witness :
    get_client_status sampleRegistry 59 "10.0.0.5:5000" =
      some ⟨PyVal.str "heartbeat", 0, true, 59⟩ ∧
    get_client_status sampleRegistry 61 "10.0.0.5:5000" =
      some ⟨PyVal.str "heartbeat", 0, false, 61⟩ := by
  constructor
  · have h := (c3_snapshot_threshold sampleRegistry 59 0 "10.0.0.5:5000"
      [("last_seen", PyVal.num 0), ("type", PyVal.str "heartbeat")]
      (by decide) (by decide)).2.1 (by norm_num)
    simpa using h
  · have h := (c3_snapshot_threshold sampleRegistry 61 0 "10.0.0.5:5000"
      [("last_seen", PyVal.num 0), ("type", PyVal.str "heartbeat")]
      (by decide) (by decide)).2.2 (by norm_num)
    simpa using h

lemma update_client_status_type (m : ClientMap) (now : ℚ) (addr role : String)
    (extra : Option (List (String × PyVal)))
    (hex : ∀ l, extra = some l → ∀ kv ∈ l, kv.1 ≠ "type") :
    ∃ info, update_client_status m now addr role extra addr = some info ∧
      dictGet info "type" = some (PyVal.str role) := by
  simp only [update_client_status, if_pos rfl]
  refine ⟨_, rfl, ?_⟩
  unfold dictGet
  have hbase : List.lookup "type"
      ((match extra with
        | some e => e.foldl (fun d kv => dictSet d kv.1 kv.2)
            [("last_seen", PyVal.num now), ("type", PyVal.str role)]
        | none => [("last_seen", PyVal.num now), ("type", PyVal.str role)])) =
      some (PyVal.str role) := by
    cases extra with
    | none =>
      rw [lookup_cons_ne _ _ _ _ (by decide), lookup_cons_self]
    | some l =>
      rw [foldl_dictSet_lookup_ne l _ _
        (fun kv hkv => hex l rfl kv hkv),
        lookup_cons_ne _ _ _ _ (by decide), lookup_cons_self]
  by_cases hr : role = "heartbeat"
  · rw [if_pos hr, dictSet_lookup_ne _ _ _ _ (by decide)]
    exact hbase
  · rw [if_neg hr]
    by_cases hr2 : role = "registration"
    · rw [if_pos hr2, dictSet_lookup_ne _ _ _ _ (by decide)]
      exact hbase
    · rw [if_neg hr2]
      exact hbase

lemma update_preserves_TypeOK (m : ClientMap) (now : ℚ) (addr role : String)
    (extra : Option (List (String × PyVal))) (hm : TypeOK m)
    (hrole : role = "heartbeat" ∨ role = "registration" ∨ role = "wind_sensor")
    (hex : ∀ l, extra = some l → ∀ kv ∈ l, kv.1 ≠ "type") :
    TypeOK (update_client_status m now addr role extra) := by
  intro a info ha
  by_cases h : a = addr
  · subst h
    obtain ⟨info2, hinfo2, htype⟩ := update_client_status_type m now a role extra hex
    rw [hinfo2] at ha
    cases ha
    rcases hrole with hr | hr | hr <;> rw [hr] at htype
    · exact Or.inl htype
    · exact Or.inr (Or.inl htype)
    · exact Or.inr (Or.inr htype)
  · have : update_client_status m now addr role extra a = m a := by
      simp only [update_client_status, if_neg h]
    rw [this] at ha
    exact hm a info ha

lemma reachable_TypeOK (m : ClientMap) (hm : ReachableRegistry m) : TypeOK m := by
  induction hm with
  | init =>
    intro a info h
    simp [emptyClients] at h
  | step hreach hstep ih =>
    cases hstep with
    | text now data addr =>
      unfold handle_text_packet
      by_cases hb : hbMatch data = true
      · simp only [hb, if_true]
        exact update_preserves_TypeOK _ now addr "heartbeat" none ih
          (Or.inl rfl) (fun l hl => nomatch hl)
      · simp only [hb, Bool.false_eq_true, if_false]
        by_cases hr : regMatch data = true
        · simp only [hr, if_true]
          exact update_preserves_TypeOK _ now addr "registration" _ ih
            (Or.inr (Or.inl rfl))
            (by intro l hl kv hkv; cases hl; simp at hkv; rw [hkv]; simp)
        · simp only [hr, Bool.false_eq_true, if_false]
          exact ih
    | wind now data addr =>
      unfold handle_wind_data_packet
      cases hl : jsonLoads data with
      | none => exact ih
      | some j =>
        cases j with
        | num n => exact ih
        | str s => exact ih
        | obj fields =>
          by_cases ht : jsonTruthy ((jsonGet fields "wind_data").getD (.obj .nil)) = true
          · simp only [ht, if_true]
            exact update_preserves_TypeOK _ now addr "wind_sensor" none ih
              (Or.inr (Or.inr rfl)) (fun l hl => nomatch hl)
          · simp only [ht, Bool.false_eq_true, if_false]
            exact ih

/-- C9: in every reachable registry state, every stored record's type
field is one of the three stored role strings (heartbeat, registration,
wind_sensor) — the roles the spec calls heartbeat, registration and
telemetry; "unknown" is only the snapshot default for absent fields. -/
theorem c9_role_invariant (m : ClientMap) (hm : ReachableRegistry m)
    (addr : String) (info : List (String × PyVal)) (hrec : m addr = some info) :
    dictGet info "type" = some (PyVal.str "heartbeat") ∨
    dictGet info "type" = some (PyVal.str "registration") ∨
    dictGet info "type" = some (PyVal.str "wind_sensor") :=
  reachable_TypeOK m hm addr info hrec

/-- Witness for C9: the registry reached by processing the heartbeat text
"ping" from one client stores a record whose type is in the role set. -/
theorem c9_role_invariant_witness :
    dictGet [("last_seen", PyVal.num 0), ("type", PyVal.str "heartbeat"),
        ("last_heartbeat", PyVal.num 0)] "type" =
      some (PyVal.str "heartbeat") ∨
    dictGet [("last_seen", PyVal.num 0), ("type", PyVal.str "heartbeat"),
        ("last_heartbeat", PyVal.num 0)] "type" =
      some (PyVal.str "registration") ∨
    dictGet [("last_seen", PyVal.num 0), ("type", PyVal.str "heartbeat"),
        ("last_heartbeat", PyVal.num 0)] "type" =
      some (PyVal.str "wind_sensor") := by
  exact c9_role_invariant (handle_text_packet emptyClients 0 "ping" "10.0.0.5:5000").1
    (ReachableRegistry.step ReachableRegistry.init
      (RegistryStep.text emptyClients 0 "ping" "10.0.0.5:5000"))
    "10.0.0.5:5000" _ (by decide)

/-- C4: keyword classification is substring-based over the lowercased
text with the two fixed keyword sets; heartbeat keywords are tested
first, so a text matching both sets classifies as heartbeat; "PING-OK"
is a heartbeat and "Please Register device" is a registration. -/
theorem c4_keyword_classification :
    (∀ text, hbMatch text = true → classifyText text = TextClass.heartbeat) ∧
    (∀ text, hbMatch text = true ∧ regMatch text = true →
      classifyText text = TextClass.heartbeat) ∧
    (∀ text, hbMatch text = false → regMatch text = true →
      classifyText text = TextClass.registration) ∧
    classifyText "PING-OK" = TextClass.heartbeat ∧
    classifyText "Please Register device" = TextClass.registration := by
  refine ⟨?_, ?_, ?_, by decide, by decide⟩
  · intro text h
    unfold classifyText
    rw [h]
    rfl
  · intro text h
    unfold classifyText
    rw [h.1]
    rfl
  · intro text h1 h2
    unfold classifyText
    rw [h1, h2]
    rfl

/-- Witness for C4 at a text matching both keyword sets: "ping login"
contains a heartbeat keyword and a registration keyword and classifies
as heartbeat. -/
theorem c4_keyword_classification_witness :
    (hbMatch "ping login" = true ∧ regMatch "ping login" = true) ∧
    classifyText "ping login" = TextClass.heartbeat := by
  refine ⟨⟨by decide, by decide⟩, ?_⟩
  exact c4_keyword_classification.2.1 "ping login" ⟨by decide, by decide⟩

/-- C10: when the control-text routing test accepts a text, the
text-packet handler takes exactly one of the heartbeat or registration
branches — updating the registry for the sender and firing exactly one
event — and the unrecognized-text fallback is unreachable. -/
theorem c10_control_text_dispatch (m : ClientMap) (now : ℚ) (text addr : String)
    (h : is_text_packet text = true) :
    (hbMatch text = true ∧ classifyText text = TextClass.heartbeat ∧
      handle_text_packet m now text addr =
        (update_client_status m now addr "heartbeat" none,
         [Event.heartbeat addr ⟨text.data.take 100⟩ now])) ∨
    (hbMatch text = false ∧ regMatch text = true ∧
      classifyText text = TextClass.registration ∧
      handle_text_packet m now text addr =
        (update_client_status m now addr "registration"
           (some [("registration_data", PyVal.str text)]),
         [Event.registered addr text now])) := by
  have hor : hbMatch text = true ∨ regMatch text = true := by
    unfold is_text_packet at h
    rw [List.any_append] at h
    rcases Bool.or_eq_true_iff.mp h with h1 | h1
    · exact Or.inl h1
    · exact Or.inr h1
  cases hb : hbMatch text with
  | true =>
    refine Or.inl ⟨rfl, ?_, ?_⟩
    · unfold classifyText
      rw [hb]
      rfl
    · unfold handle_text_packet
      rw [hb]
      rfl
  | false =>
    have hr : regMatch text = true := by
      rcases hor with h1 | h1
      · rw [hb] at h1; cases h1
      · exact h1
    refine Or.inr ⟨rfl, hr, ?_, ?_⟩
    · unfold classifyText
      rw [hb, hr]
      rfl
    · unfold handle_text_packet
      rw [hb, hr]
      rfl

/-- Witness for C10 at the heartbeat text "ping" from one sender. -/
theorem c10_control_text_dispatch_witness :
    is_text_packet "ping" = true ∧
    ((hbMatch "ping" = true ∧ classifyText "ping" = TextClass.heartbeat ∧
      handle_text_packet emptyClients 0 "ping" "10.0.0.5:5000" =
        (update_client_status emptyClients 0 "10.0.0.5:5000" "heartbeat" none,
         [Event.heartbeat "10.0.0.5:5000" ⟨"ping".data.take 100⟩ 0])) ∨
    (hbMatch "ping" = false ∧ regMatch "ping" = true ∧
      classifyText "ping" = TextClass.registration ∧
      handle_text_packet emptyClients 0 "ping" "10.0.0.5:5000" =
        (update_client_status emptyClients 0 "10.0.0.5:5000" "registration"
           (some [("registration_data", PyVal.str "ping")]),
         [Event.registered "10.0.0.5:5000" "ping" 0]))) := by
  refine ⟨by decide, ?_⟩
  exact c10_control_text_dispatch emptyClients 0 "ping" "10.0.0.5:5000" (by decide)

/-- C5 counterexample: classifying the same valid frame at two different
clock readings yields different serialized envelopes (the timestamp field
differs), so the classifier output is not independent of the call time. -/
theorem c5_counterexample_timestamp_varies :
    parse_modbus_data exampleFrame "2024-01-01T00:00:00" ≠
      parse_modbus_data exampleFrame "2024-01-01T00:00:01" := by
  decide

lemma windDataOf_build (w : WindValues) (ts : String) :
    windDataOf (build_wind_json w ts) =
      some (.obj (.cons "0" (.num w.wind_speed_raw)
        (.cons "1" (.num w.wind_level)
          (.cons "2" (.num w.wind_direction_raw)
            (.cons "3" (.num w.wind_direction_code) .nil))))) := by
  rfl

/-- C5 amended: for a fixed clock reading the classifier is a pure
function of the bytes, and across different clock readings the
acceptance decision and the extracted wind_data contents agree — only
the embedded timestamp field varies with the call time. -/
theorem c5_classification_time_independent (data : List Nat) (t1 t2 : String) :
    (parse_modbus_data data t1).isSome = (parse_modbus_data data t2).isSome ∧
    (parse_modbus_envelope data t1).map windDataOf =
      (parse_modbus_envelope data t2).map windDataOf := by
  unfold parse_modbus_data parse_modbus_envelope parse_standard_modbus parse_register_data
  by_cases h : is_standard_modbus data = true
  · simp only [h, if_true]
    split_ifs with h1 h2
    · exact ⟨rfl, rfl⟩
    · exact ⟨rfl, rfl⟩
    · refine ⟨by trivial, ?_⟩
      rw [Option.map_some', Option.map_some', windDataOf_build, windDataOf_build]
  · simp only [h, Bool.false_eq_true, if_false]
    exact ⟨by trivial, by trivial⟩

/-- C6: the text decoder tries utf-8, gbk, gb2312, ascii, latin1 in that
order and returns the first success; since latin1 maps every byte to the
code point of the same value and cannot fail, the decode step is total
(never none), for every behaviour of the earlier codecs. -/
theorem c6_text_decode_total (C : Codecs) (data : List Nat) :
    try_text_decode C data =
      (match C.utf8 data with
       | some s => some s
       | none =>
         match C.gbk data with
         | some s => some s
         | none =>
           match C.gb2312 data with
           | some s => some s
           | none =>
             match C.ascii data with
             | some s => some s
             | none => some ⟨data.map Char.ofNat⟩) ∧
    (try_text_decode C data).isSome = true := by
  have h : try_text_decode C data =
      (match C.utf8 data with
       | some s => some s
       | none =>
         match C.gbk data with
         | some s => some s
         | none =>
           match C.gb2312 data with
           | some s => some s
           | none =>
             match C.ascii data with
             | some s => some s
             | none => some ⟨data.map Char.ofNat⟩) := by
    unfold try_text_decode
    cases h1 : C.utf8 data <;> cases h2 : C.gbk data <;> cases h3 : C.gb2312 data <;>
      cases h4 : C.ascii data <;>
      simp [firstSuccess, latin1Decode, h1, h2, h3, h4]
  refine ⟨h, ?_⟩
  rw [h]
  cases C.utf8 data <;> cases C.gbk data <;> cases C.gb2312 data <;>
    cases C.ascii data <;> rfl

lemma digit_toNat (c : Char) (h : isDigitCh c = true) :
    48 ≤ c.toNat ∧ c.toNat ≤ 57 := by
  unfold isDigitCh at h
  rcases Bool.and_eq_true_iff.mp h with ⟨ha, hb⟩
  exact ⟨of_decide_eq_true ha, of_decide_eq_true hb⟩

lemma ws_false_of_digit (c : Char) (h : isDigitCh c = true) :
    isJsonWs c = false := by
  have hd := digit_toNat c h
  unfold isJsonWs
  have f1 : (c == ' ') = false := by
    rw [beq_eq_false_iff_ne]
    intro he; rw [he] at hd; exact absurd hd (by decide)
  have f2 : (c == '\t') = false := by
    rw [beq_eq_false_iff_ne]
    intro he; rw [he] at hd; exact absurd hd (by decide)
  have f3 : (c == '\n') = false := by
    rw [beq_eq_false_iff_ne]
    intro he; rw [he] at hd; exact absurd hd (by decide)
  have f4 : (c == '\r') = false := by
    rw [beq_eq_false_iff_ne]
    intro he; rw [he] at hd; exact absurd hd (by decide)
  rw [f1, f2, f3, f4]
  rfl

lemma digit_ne_quote (c : Char) (h : isDigitCh c = true) : c ≠ '"' := by
  intro he; rw [he] at h; exact absurd h (by decide)

lemma digit_ne_brace (c : Char) (h : isDigitCh c = true) : c ≠ '{' := by
  intro he; rw [he] at h; exact absurd h (by decide)

lemma digitChar_isDigit (d : Nat) (h : d < 10) :
    isDigitCh (digitChar d) = true := by
  interval_cases d <;> decide

lemma digitVal_digitChar (d : Nat) (h : d < 10) :
    digitVal (digitChar d) = d := by
  interval_cases d <;> decide

lemma natDigitsW_digits (n : Nat) : ∀ c ∈ natDigitsW n, isDigitCh c = true := by
  induction n using Nat.strong_induction_on with
  | _ n ih =>
    rw [natDigitsW]
    by_cases h : n < 10
    · rw [dif_pos h]
      intro c hc
      simp only [List.mem_singleton] at hc
      subst hc
      exact digitChar_isDigit n h
    · rw [dif_neg h]
      intro c hc
      rcases List.mem_append.mp hc with hc | hc
      · exact ih (n / 10) (Nat.div_lt_self (by omega) (by omega)) c hc
      · simp only [List.mem_singleton] at hc
        subst hc
        exact digitChar_isDigit (n % 10) (Nat.mod_lt _ (by omega))

lemma natDigitsW_ne_nil (n : Nat) : natDigitsW n ≠ [] := by
  rw [natDigitsW]
  by_cases h : n < 10
  · rw [dif_pos h]; simp
  · rw [dif_neg h]; simp

lemma digitsToNat_natDigitsW (n : Nat) : digitsToNat (natDigitsW n) = n := by
  induction n using Nat.strong_induction_on with
  | _ n ih =>
    rw [natDigitsW]
    by_cases h : n < 10
    · rw [dif_pos h]
      unfold digitsToNat
      simp only [List.foldl_cons, List.foldl_nil, Nat.zero_mul, Nat.zero_add]
      exact digitVal_digitChar n h
    · rw [dif_neg h]
      unfold digitsToNat
      rw [List.foldl_append]
      have hrec := ih (n / 10) (Nat.div_lt_self (by omega) (by omega))
      unfold digitsToNat at hrec
      rw [hrec]
      simp only [List.foldl_cons, List.foldl_nil]
      rw [digitVal_digitChar (n % 10) (Nat.mod_lt _ (by omega))]
      omega

lemma takeDigits_append (ds rest : List Char)
    (hds : ∀ c ∈ ds, isDigitCh c = true) (hrest : nonDigitStart rest) :
    takeDigits (ds ++ rest) = (ds, rest) := by
  induction ds with
  | nil =>
    cases rest with
    | nil => rfl
    | cons c cs =>
      have hc : isDigitCh c = false := hrest
      simp [takeDigits, hc]
  | cons d ds ih =>
    have hd : isDigitCh d = true := hds d (List.mem_cons_self _ _)
    have ih2 := ih fun c hc => hds c (List.mem_cons_of_mem _ hc)
    simp [takeDigits, hd, ih2]

lemma scanStrBody_append (s rest : List Char)
    (h : ∀ c ∈ s, c ≠ '"' ∧ c ≠ '\\') :
    scanStrBody (s ++ '"' :: rest) = some (s, rest) := by
  induction s with
  | nil => simp [scanStrBody]
  | cons c cs ih =>
    have hc := h c (List.mem_cons_self _ _)
    have ih2 := ih fun x hx => h x (List.mem_cons_of_mem _ hx)
    simp [scanStrBody, hc.1, hc.2, ih2]

lemma skipWs_not_ws (c : Char) (cs : List Char) (h : isJsonWs c = false) :
    skipWs (c :: cs) = c :: cs := by
  simp [skipWs, h]

lemma skipWs_space (cs : List Char) : skipWs (' ' :: cs) = skipWs cs := by
  simp [skipWs, isJsonWs]

lemma parseVal_space (fuel : Nat) (cs : List Char) :
    parseVal (fuel + 1) (' ' :: cs) = parseVal (fuel + 1) cs := by
  rw [parseVal, parseVal, skipWs_space]

lemma parseFields_space (fuel : Nat) (b : Bool) (cs : List Char) :
    parseFields (fuel + 1) b (' ' :: cs) = parseFields (fuel + 1) b cs := by
  rw [parseFields, parseFields, skipWs_space]

lemma parseVal_num (fuel n : Nat) (rest : List Char) (hrest : nonDigitStart rest) :
    parseVal (fuel + 1) (natDigits n ++ rest) = some (.num n, rest) := by
  rw [natDigits_eq_spec]
  have hdig := natDigitsW_digits n
  cases hnd : natDigitsW n with
  | nil => exact absurd hnd (natDigitsW_ne_nil n)
  | cons c cs =>
    rw [hnd] at hdig
    have hc : isDigitCh c = true := hdig c (List.mem_cons_self _ _)
    have htd : takeDigits (c :: (cs ++ rest)) = (c :: cs, rest) := by
      rw [← List.cons_append]
      exact takeDigits_append _ _ hdig hrest
    have hval : digitsToNat (c :: cs) = n := by
      rw [← hnd]
      exact digitsToNat_natDigitsW n
    rw [List.cons_append, parseVal, skipWs_not_ws c _ (ws_false_of_digit c hc)]
    simp only [if_neg (digit_ne_quote c hc), if_neg (digit_ne_brace c hc),
      hc, if_true, htd, hval]

lemma parseVal_str (fuel : Nat) (s rest : List Char)
    (h : ∀ c ∈ s, c ≠ '"' ∧ c ≠ '\\') :
    parseVal (fuel + 1) ('"' :: (s ++ '"' :: rest)) = some (.str ⟨s⟩, rest) := by
  rw [parseVal, skipWs_not_ws _ _ (by rfl)]
  simp only [if_pos rfl, scanStrBody_append s rest h, Option.map_some', if_true]

lemma parseVal_obj (fuel : Nat) (cs : List Char) :
    parseVal (fuel + 1) ('{' :: cs) =
      (parseFields fuel true cs).map fun p => (Json.obj p.1, p.2) := by
  rw [parseVal, skipWs_not_ws _ _ (by rfl)]
  simp only [if_neg (by decide : ¬('{' : Char) = '"'), if_pos rfl, if_true]

lemma parseFields_close (fuel : Nat) (rest : List Char) :
    parseFields (fuel + 1) true ('}' :: rest) = some (.nil, rest) := by
  rw [parseFields, skipWs_not_ws _ _ (by rfl)]
  rfl

lemma parseFields_entry (fuel : Nat) (allowEnd : Bool) (k r2 : List Char)
    (hk : ∀ c ∈ k, c ≠ '"' ∧ c ≠ '\\') :
    parseFields (fuel + 1) allowEnd ('"' :: (k ++ '"' :: ':' :: r2)) =
      (match parseVal fuel r2 with
       | none => none
       | some (v, r3) =>
         match skipWs r3 with
         | '}' :: r4 => some (.cons ⟨k⟩ v .nil, r4)
         | ',' :: r4 =>
           (parseFields fuel false r4).map fun p => (.cons ⟨k⟩ v p.1, p.2)
         | _ => none) := by
  rw [parseFields, skipWs_not_ws _ _ (by rfl)]
  simp only [scanStrBody_append k _ hk, skipWs_not_ws ':' _ (by rfl)]

lemma jsize_pos (j : Json) : 1 ≤ jsize j := by
  cases j <;> simp [jsize]

lemma fsize_pos (fs : JsonFields) : 1 ≤ fsize fs := by
  cases fs <;> simp [fsize]

lemma parse_dumps (fuel : Nat) :
    (∀ j rest, plainJson j → jsize j ≤ fuel → nonDigitStart rest →
      parseVal fuel (dumpsJson j ++ rest) = some (j, rest)) ∧
    (∀ fs b rest, plainFields fs → fsize fs ≤ fuel →
      (b = true ∨ fs ≠ JsonFields.nil) →
      parseFields fuel b (dumpsFields fs ++ '}' :: rest) = some (fs, rest)) := by
  induction fuel with
  | zero =>
    refine ⟨?_, ?_⟩
    · intro j rest _ hsz _
      exfalso
      have := jsize_pos j
      omega
    · intro fs b rest _ hsz _
      exfalso
      have := fsize_pos fs
      omega
  | succ fuel ih =>
    obtain ⟨ihV, ihF⟩ := ih
    refine ⟨?_, ?_⟩
    · intro j rest hp hsz hnd
      cases j with
      | num n =>
        simp only [dumpsJson]
        exact parseVal_num fuel n rest hnd
      | str s =>
        simp only [dumpsJson, List.cons_append, List.append_assoc,
          List.singleton_append, List.nil_append]
        rw [parseVal_str fuel s.data rest (by simpa [plainJson] using hp)]
      | obj fs =>
        simp only [dumpsJson, List.cons_append, List.append_assoc,
          List.singleton_append, List.nil_append]
        rw [parseVal_obj fuel _, ihF fs true rest (by simpa [plainJson] using hp)
          (by simp [jsize] at hsz; omega) (Or.inl rfl), Option.map_some']
    · intro fs b rest hp hsz hb
      cases fs with
      | nil =>
        have hb2 : b = true := by
          rcases hb with h | h
          · exact h
          · exact absurd rfl h
        subst hb2
        simp only [dumpsFields, List.nil_append]
        exact parseFields_close fuel rest
      | cons k v r =>
        simp only [plainFields] at hp
        obtain ⟨hpk, hpv, hpr⟩ := hp
        have hfv : 1 ≤ fuel := by
          simp only [fsize] at hsz
          have h1 := jsize_pos v
          have h2 := fsize_pos r
          omega
        obtain ⟨f2, rfl⟩ : ∃ f2, fuel = f2 + 1 := ⟨fuel - 1, by omega⟩
        cases r with
        | nil =>
          have hstep : dumpsFields (.cons k v .nil) =
              '"' :: (k.data ++ '"' :: ':' :: ' ' :: dumpsJson v) := rfl
          rw [hstep]
          simp only [List.cons_append, List.append_assoc]
          rw [parseFields_entry (f2 + 1) b k.data _ hpk, parseVal_space f2 _,
            ihV v ('}' :: rest) hpv (by simp only [fsize] at hsz; omega) rfl]
          rfl
        | cons k2 v2 r2 =>
          have hstep : dumpsFields (.cons k v (.cons k2 v2 r2)) =
              ('"' :: (k.data ++ '"' :: ':' :: ' ' :: dumpsJson v)) ++
                ',' :: ' ' :: dumpsFields (.cons k2 v2 r2) := rfl
          rw [hstep]
          simp only [List.cons_append, List.append_assoc]
          rw [parseFields_entry (f2 + 1) b k.data _ hpk, parseVal_space f2 _,
            ihV v (',' :: ' ' :: (dumpsFields (.cons k2 v2 r2) ++ '}' :: rest)) hpv
              (by simp only [fsize] at hsz; have := fsize_pos (.cons k2 v2 r2); omega)
              rfl]
          show (parseFields (f2 + 1) false
              (' ' :: (dumpsFields (.cons k2 v2 r2) ++ '}' :: rest))).map
                (fun p => (JsonFields.cons ⟨k.data⟩ v p.1, p.2)) =
            some (.cons k v (.cons k2 v2 r2), rest)
          rw [parseFields_space f2 false _,
            ihF (.cons k2 v2 r2) false rest hpr
              (by simp only [fsize] at hsz ⊢; have := jsize_pos v; omega)
              (Or.inr fun h => JsonFields.noConfusion h), Option.map_some']

mutual
lemma jsize_le_length (j : Json) : jsize j ≤ (dumpsJson j).length
  := by
  cases j with
  | num n =>
    have hne := natDigitsW_ne_nil n
    have : 0 < (natDigitsW n).length := List.length_pos.mpr hne
    simp only [jsize, dumpsJson, natDigits_eq_spec]
    omega
  | str s => simp [jsize, dumpsJson]
  | obj fs =>
    have := fsize_le_length fs
    simp only [jsize, dumpsJson, List.length_cons, List.length_append,
      List.length_singleton]
    omega

lemma fsize_le_length (fs : JsonFields) : fsize fs ≤ (dumpsFields fs).length + 1
  := by
  cases fs with
  | nil => simp [fsize, dumpsFields]
  | cons k v r =>
    have hv := jsize_le_length v
    cases r with
    | nil =>
      simp only [fsize, dumpsFields, List.length_cons, List.length_append]
      omega
    | cons k2 v2 r2 =>
      have hr := fsize_le_length (.cons k2 v2 r2)
      simp only [fsize, dumpsFields, List.length_cons, List.length_append] at hr ⊢
      omega
end

lemma jsonLoads_dumps (j : Json) (hp : plainJson j) :
    jsonLoads (jsonDumpsStr j) = some j := by
  show (match parseVal ((dumpsJson j).length + 1) (dumpsJson j) with
    | some (v, rest) => if (skipWs rest).isEmpty then some v else none
    | none => none) = some j
  have hfuel : jsize j ≤ (dumpsJson j).length + 1 :=
    le_trans (jsize_le_length j) (by omega)
  have hparse := (parse_dumps ((dumpsJson j).length + 1)).1 j [] hp hfuel trivial
  rw [List.append_nil] at hparse
  rw [hparse]
  rfl

/-- C8: serializing four register values through the canonical envelope
(`_build_wind_json` + `json.dumps`) and re-parsing the text through the
telemetry JSON path (`json.loads` + `get('wind_data')`) recovers exactly
the same four values under slot keys "0".."3"; the telemetry handler on
that text fires the wind event with those values and records the sender
as wind_sensor. -/
theorem c8_envelope_roundtrip (m : ClientMap) (now : ℚ) (addr : String)
    (v0 v1 v2 v3 : Nat) (ts : String)
    (h0 : v0 < 65536) (h1 : v1 < 65536) (h2 : v2 < 65536) (h3 : v3 < 65536)
    (hts : ∀ c ∈ ts.data, c ≠ '"' ∧ c ≠ '\\') :
    jsonLoads (jsonDumpsStr (build_wind_json ⟨v0, v1, v2, v3⟩ ts)) =
      some (build_wind_json ⟨v0, v1, v2, v3⟩ ts) ∧
    (jsonLoads (jsonDumpsStr (build_wind_json ⟨v0, v1, v2, v3⟩ ts))).map windDataOf =
      some (some (.obj (.cons "0" (.num v0) (.cons "1" (.num v1)
        (.cons "2" (.num v2) (.cons "3" (.num v3) .nil)))))) ∧
    handle_wind_data_packet m now
        (jsonDumpsStr (build_wind_json ⟨v0, v1, v2, v3⟩ ts)) addr =
      (update_client_status m now addr "wind_sensor" none,
       [Event.windData addr (.obj (.cons "0" (.num v0) (.cons "1" (.num v1)
          (.cons "2" (.num v2) (.cons "3" (.num v3) .nil))))) (some (.str ts))]) := by
  have hplain : plainJson (build_wind_json ⟨v0, v1, v2, v3⟩ ts) := by
    simp only [build_wind_json, plainJson, plainFields]
    exact ⟨by decide, ⟨by decide, trivial, by decide, trivial, by decide, trivial,
      by decide, trivial, trivial⟩, by decide, hts, trivial⟩
  have hload := jsonLoads_dumps _ hplain
  refine ⟨hload, ?_, ?_⟩
  · rw [hload, Option.map_some', windDataOf_build]
  · unfold handle_wind_data_packet
    rw [hload]
    rfl

/-- Witness for C8 at the Scenario 1 values 100, 3, 90, 2. -/
theorem c8_envelope_roundtrip_witness :
    ((100 : Nat) < 65536 ∧ (3 : Nat) < 65536 ∧ (90 : Nat) < 65536 ∧
      (2 : Nat) < 65536 ∧
      (∀ c ∈ "2024-01-01T00:00:00".data, c ≠ '"' ∧ c ≠ '\\')) ∧
    jsonLoads (jsonDumpsStr (build_wind_json ⟨100, 3, 90, 2⟩
        "2024-01-01T00:00:00")) =
      some (build_wind_json ⟨100, 3, 90, 2⟩ "2024-01-01T00:00:00") := by
  refine ⟨⟨by decide, by decide, by decide, by decide, by decide⟩, ?_⟩
  exact (c8_envelope_roundtrip emptyClients 0 "10.0.0.5:5000" 100 3 90 2
    "2024-01-01T00:00:00" (by decide) (by decide) (by decide) (by decide)
    (by decide)).1

end WindUdp
